import Mathlib

/-!
Verification of the synchronization core of `vocasync-astro`:
the Job Completion State Machine (`src/api/client.ts`, `pollUntilComplete`),
the Word Alignment Matcher (`src/rehype/audio-words.ts`, `processTextNode`
and its callers), the per-slug alignment cache (`fetchAlignmentSync`),
and the per-document outcome handling (`src/sync/orchestrator.ts`,
`processItem`).

All definitions below are shallow embeddings of the TypeScript source.
Machine numbers appearing in alignment timestamps are modelled as `Rat`;
no claim here depends on floating-point rounding.
-/

/-! ## Word Alignment Matcher (`src/rehype/audio-words.ts`) -/

/-- Character-level services of the JavaScript runtime that the matcher uses:
the Unicode classes `\p{L}`/`\p{N}` of the word regex and of
`normalizeWord`'s strip step, and `String.prototype.toLowerCase`.
The matcher's logic is independent of the exact classifier, so the
development is parametrised by it; `asciiChars` below instantiates it. -/
structure CharModel where
  letterOrNum : Char → Bool
  lower : Char → Char

/-- ASCII instantiation of the JavaScript Unicode character classes,
used for concrete evaluations. -/
def asciiChars : CharModel :=
  { letterOrNum := fun c => c.isAlpha || c.isDigit
    lower := Char.toLower }

/-- Character class of the word regex `/[\p{L}\p{N}'']+/gu` in
`processTextNode`: a letter/number, the ASCII apostrophe, or U+2019. -/
def wordChar (cm : CharModel) (c : Char) : Bool :=
  cm.letterOrNum c || c == '\'' || c == '’'

/-- One timestamped reference word of the Alignment Track
(interface `AlignedWord` in `src/types/index.ts`; the source field `end`
is called `stop` here because `end` is reserved in Lean). -/
structure AlignedWord where
  word : List Char
  start : Rat
  stop : Rat
deriving DecidableEq

/-- `normalizeWord` from `src/rehype/audio-words.ts`: lowercase, strip every
character that is not a letter/number (`replace(/[^\p{L}\p{N}]/gu, "")`),
then `trim` (whitespace trimming; a no-op once non-letter/number characters
are gone under the real JavaScript classes, kept for faithfulness). -/
def normalizeWord (cm : CharModel) (w : List Char) : List Char :=
  (((w.map cm.lower).filter cm.letterOrNum).dropWhile Char.isWhitespace).reverse.dropWhile Char.isWhitespace |>.reverse

/-- Output node produced by `processTextNode`: either a plain hast text node,
or the `<span>` element carrying `data-word-index`, `data-start`, `data-end`
and the original token text as its single text child. -/
inductive ANode
  | text (value : List Char)
  | span (trackIndex : Nat) (start stop : Rat) (value : List Char)
deriving DecidableEq

/-- A maximal run produced by the tokenizing regex loop of `processTextNode`:
either a maximal run of word characters (a regex match) or the literal
inter-token text between two matches. -/
inductive Tok
  | word (w : List Char)
  | sep (s : List Char)
deriving DecidableEq

/-- The tokenization performed by the `wordPattern.exec` loop of
`processTextNode`: splits the text into maximal runs of word characters
(`Tok.word`) and the literal gaps between them (`Tok.sep`),
in their original positions. -/
def tokenize (cm : CharModel) : List Char → List Tok
  | [] => []
  | c :: cs =>
    let rest := tokenize cm cs
    if wordChar cm c then
      match rest with
      | .word w :: rs => .word (c :: w) :: rs
      | _ => .word [c] :: rest
    else
      match rest with
      | .sep s :: rs => .sep (c :: s) :: rs
      | _ => .sep [c] :: rest

/-- The `maxLookahead` constant of `processTextNode`. -/
def maxLookahead : Nat := 10

/-- The lookahead search loop of `processTextNode`:
`for (let i = wordIndex; i < Math.min(wordIndex + maxLookahead, words.length); i++)`,
returning the first candidate (with its index) whose normalization equals
`norm`. The fuel argument counts the remaining window entries. -/
def findFrom (cm : CharModel) (words : List AlignedWord) (norm : List Char) :
    Nat → Nat → Option (Nat × AlignedWord)
  | _, 0 => none
  | i, k + 1 =>
    match words[i]? with
    | none => none
    | some cand =>
      if normalizeWord cm cand.word = norm then some (i, cand)
      else findFrom cm words norm (i + 1) k

/-- The full window search of `processTextNode` starting at the cursor. -/
def findMatch (cm : CharModel) (words : List AlignedWord) (wordIndex : Nat)
    (norm : List Char) : Option (Nat × AlignedWord) :=
  findFrom cm words norm wordIndex maxLookahead

/-- The per-token body of `processTextNode`'s loop: on a window match emit the
timed span (original token text, matched entry's times and track index) and
advance the cursor to one past the matched index; otherwise emit the token
as a plain text node with the cursor unchanged. -/
def stepToken (cm : CharModel) (words : List AlignedWord) (w : List Char)
    (wordIndex : Nat) : ANode × Nat :=
  match findMatch cm words wordIndex (normalizeWord cm w) with
  | some (i, cand) => (.span i cand.start cand.stop w, i + 1)
  | none => (.text w, wordIndex)

/-- The main loop of `processTextNode` over the tokenized text: gap runs
become text nodes unchanged, word runs go through `stepToken`, and the
cursor is threaded left to right. -/
def processToks (cm : CharModel) (words : List AlignedWord) :
    List Tok → Nat → List ANode × Nat
  | [], i => ([], i)
  | .sep s :: rest, i =>
    (.text s :: (processToks cm words rest i).1, (processToks cm words rest i).2)
  | .word w :: rest, i =>
    ((stepToken cm words w i).1
        :: (processToks cm words rest (stepToken cm words w i).2).1,
      (processToks cm words rest (stepToken cm words w i).2).2)

/-- The final merge pass of `processTextNode`: adjacent text nodes are merged
into one (maximally); span elements are never merged. -/
def mergeNodes : List ANode → List ANode
  | [] => []
  | .text a :: rest =>
    match mergeNodes rest with
    | .text b :: rs => .text (a ++ b) :: rs
    | ms => .text a :: ms
  | .span i s e v :: rest => .span i s e v :: mergeNodes rest

/-- Result shape of `processTextNode`. -/
structure ProcessResult where
  nodes : List ANode
  nextWordIndex : Nat
deriving DecidableEq

/-- `processTextNode(text, words, startIndex, classPrefix)` from
`src/rehype/audio-words.ts` (the CSS class prefix only names the emitted
class and is not modelled). -/
def processTextNode (cm : CharModel) (text : List Char)
    (words : List AlignedWord) (startIndex : Nat) : ProcessResult :=
  ⟨mergeNodes (processToks cm words (tokenize cm text) startIndex).1,
    (processToks cm words (tokenize cm text) startIndex).2⟩

/-- The text carried by an output node: a text node's value, or the single
text child of a timed span. -/
def nodeText : ANode → List Char
  | .text v => v
  | .span _ _ _ v => v

/-- Concatenation of the texts of a node list, in order. -/
def nodesText (ns : List ANode) : List Char :=
  (ns.map nodeText).flatten

/-- The text of one token run. -/
def tokText : Tok → List Char
  | .word w => w
  | .sep s => s

/-- Concatenation of the texts of a token list, in order. -/
def toksText (ts : List Tok) : List Char :=
  (ts.map tokText).flatten

/-- Whether the track entry at index `j` (if any) normalizes to `norm`. -/
def matchesAt (cm : CharModel) (words : List AlignedWord) (norm : List Char)
    (j : Nat) : Bool :=
  match words[j]? with
  | some c => decide (normalizeWord cm c.word = norm)
  | none => false

/-- Specification-side window search, following the spec's words: search the
track starting at `cursor` and extending forward up to 10 entries; the first
normalized-equal entry within the window is accepted. Compared against the
source-side `findMatch`. -/
def specFirstMatch (cm : CharModel) (words : List AlignedWord) (cursor : Nat)
    (norm : List Char) : Option Nat :=
  (List.range' cursor maxLookahead).find? (matchesAt cm words norm)

/-! ## Rehype plugin visit step (`rehypeAudioWords`, `isInNonTextualElement`) -/

/-- An ancestor of a visited text node, as inspected by
`isInNonTextualElement`: the hast root (no tag, no properties) or an element
with its tag name and its class list. A single-string `className` property
of the source is the one-element list. -/
inductive Ancestor
  | root
  | element (tagName : String) (className : List String)
deriving DecidableEq

/-- The `nonTextualTags` set of `isInNonTextualElement`. -/
def nonTextualTags : List String := ["code", "pre", "script", "style", "svg", "math"]

/-- The `nonTextualClasses` set of `isInNonTextualElement`. -/
def nonTextualClasses : List String := ["katex", "katex-mathml", "katex-html", "mjx-container"]

/-- `isInNonTextualElement(ancestors)` from `src/rehype/audio-words.ts`:
some ancestor is an element whose tag is non-textual or whose class list
contains a non-textual class. -/
def isInNonTextualElement (ancestors : List Ancestor) : Bool :=
  ancestors.any fun a =>
    match a with
    | .root => false
    | .element tagName className =>
      decide (tagName ∈ nonTextualTags)
        || className.any fun cls => decide (cls ∈ nonTextualClasses)

/-- Outcome of one text-node visit: the node is left untouched, or it is
replaced in its parent by the produced node list. -/
inductive NodeOutcome
  | unchangedNode
  | replaced (nodes : List ANode)
deriving DecidableEq

/-- The per-text-node body of the `visitParents` callback in
`rehypeAudioWords`: skip nodes inside non-textual elements; run
`processTextNode`; if it produced zero or one node, return without touching
the node and without updating the shared `wordIndex`; otherwise replace the
node and advance `wordIndex` to `result.nextWordIndex`. (The source also
re-locates the node inside `parent.children` before splicing; a visited
node is always found there, so that lookup is not modelled.) -/
def visitTextNode (cm : CharModel) (words : List AlignedWord)
    (ancestors : List Ancestor) (value : List Char) (wordIndex : Nat) :
    NodeOutcome × Nat :=
  if isInNonTextualElement ancestors then (.unchangedNode, wordIndex)
  else if (processTextNode cm value words wordIndex).nodes.length = 0
      ∨ (processTextNode cm value words wordIndex).nodes.length = 1 then
    (.unchangedNode, wordIndex)
  else
    (.replaced (processTextNode cm value words wordIndex).nodes,
      (processTextNode cm value words wordIndex).nextWordIndex)

/-! ## Alignment cache (`fetchAlignmentSync`) -/

/-- Result of one `fetchAlignmentSync(alignmentUrl, slug)` call: the returned
value, the cache map afterwards (modelled as an association list keyed by
slug), and whether a remote fetch was performed during the call. -/
structure FetchOutcome where
  result : Option (List AlignedWord)
  cache : List (String × List AlignedWord)
  didFetch : Bool
deriving DecidableEq

/-- `fetchAlignmentSync` from `src/rehype/audio-words.ts`. The remote
interaction (curl, JSON parse, shape check of `data.words`) is abstracted
into `fetcher`: `some words` when a well-formed words array comes back,
`none` on any failure. A cached slug is answered from the cache without
fetching; otherwise the function fetches and stores the words only when the
fetch succeeded — a failed fetch stores nothing. -/
def fetchAlignmentSync (fetcher : String → Option (List AlignedWord))
    (cache : List (String × List AlignedWord)) (alignmentUrl slug : String) :
    FetchOutcome :=
  match cache.lookup slug with
  | some ws => ⟨some ws, cache, false⟩
  | none =>
    match fetcher alignmentUrl with
    | some ws => ⟨some ws, (slug, ws) :: cache, true⟩
    | none => ⟨none, cache, true⟩

/-! ## Job Completion State Machine (`pollUntilComplete`) -/

/-- Status of a remote job, `JobStatus` in `src/types/index.ts`. -/
inductive JobStatus
  | pending | processing | completed | failed
deriving DecidableEq

/-- The `synthesisJob` field of `ProjectStatus`. -/
structure SynthJob where
  status : JobStatus
  audioUrl : Option String := none
  duration : Option Rat := none
  error : Option String := none
deriving DecidableEq

/-- The `alignmentJob` field of `ProjectStatus`. -/
structure AlignJob where
  status : JobStatus
  alignmentUrl : Option String := none
  error : Option String := none
deriving DecidableEq

/-- `ProjectStatus` from `src/types/index.ts`: the composite view of one
poll instant, with the two optional sub-job records. -/
structure ProjectStatus where
  uuid : String
  name : String
  status : JobStatus
  synthesisJob : Option SynthJob := none
  alignmentJob : Option AlignJob := none
deriving DecidableEq

/-- JavaScript `error || "Unknown error"` on an optional error string:
an absent or empty message falls back to the default. -/
def errMsg (e : Option String) : String :=
  match e with
  | some s => if s = "" then "Unknown error" else s
  | none => "Unknown error"

/-- Outcome of `pollUntilComplete`: normal return of the final status,
a thrown `VocaSyncAPIError` for a failed sub-job, or the thrown polling
timeout. The attempt index at which the loop ended is recorded. -/
inductive PollResult
  | succeeded (attempt : Nat) (status : ProjectStatus)
  | jobFailed (attempt : Nat) (msg : String)
  | pollingTimeout
deriving DecidableEq

/-- The status of the synthesis sub-job via optional chaining
(`status.synthesisJob?.status`). -/
def synthJobStatus (st : ProjectStatus) : Option JobStatus :=
  st.synthesisJob.map SynthJob.status

/-- The status of the alignment sub-job via optional chaining
(`status.alignmentJob?.status`). -/
def alignJobStatus (st : ProjectStatus) : Option JobStatus :=
  st.alignmentJob.map AlignJob.status

/-- `synthComplete` of the polling loop. -/
def synthComplete (st : ProjectStatus) : Bool :=
  decide (synthJobStatus st = some .completed)
    || decide (synthJobStatus st = some .failed)

/-- `alignComplete` of the polling loop. -/
def alignComplete (st : ProjectStatus) : Bool :=
  decide (alignJobStatus st = some .completed)
    || decide (alignJobStatus st = some .failed)

/-- One iteration body of the `pollUntilComplete` loop at a given attempt
index: `some` verdict when the iteration returns or throws, `none` when the
loop sleeps and continues. The order of checks follows the source: the
both-complete branch (synthesis failure checked before alignment failure),
then the `shouldWaitForAlignment && attempt > 5` early success. -/
def pollStep (st : ProjectStatus) (attempt : Nat) : Option PollResult :=
  if synthComplete st && alignComplete st then
    if synthJobStatus st = some .failed then
      some (.jobFailed attempt
        ("Synthesis failed: " ++ errMsg (st.synthesisJob.bind SynthJob.error)))
    else if alignJobStatus st = some .failed then
      some (.jobFailed attempt
        ("Alignment failed: " ++ errMsg (st.alignmentJob.bind AlignJob.error)))
    else some (.succeeded attempt st)
  else if synthComplete st && st.alignmentJob.isNone && decide (5 < attempt) then
    some (.succeeded attempt st)
  else none

/-- The `for (let attempt = 0; attempt < maxAttempts; attempt++)` loop:
`fuel` counts the remaining attempts, `attempt` the current index; the poll
at each attempt is given by the (scripted) poller `poll`. Exhausting the
attempts throws the polling-timeout error. -/
def pollLoop (poll : Nat → ProjectStatus) (attempt : Nat) : Nat → PollResult
  | 0 => .pollingTimeout
  | fuel + 1 =>
    match pollStep (poll attempt) attempt with
    | some r => r
    | none => pollLoop poll (attempt + 1) fuel

/-- The options record of `pollUntilComplete`, with its two numeric knobs
(`onProgress` never alters control flow and is not modelled). -/
structure PollOptions where
  maxAttempts : Option Nat := none
  intervalMs : Option Nat := none
deriving DecidableEq

/-- `maxAttempts = 120` defaulting in `pollUntilComplete`'s destructuring. -/
def PollOptions.resolvedMaxAttempts (o : PollOptions) : Nat :=
  o.maxAttempts.getD 120

/-- `intervalMs = 5000` defaulting in `pollUntilComplete`'s destructuring. -/
def PollOptions.resolvedIntervalMs (o : PollOptions) : Nat :=
  o.intervalMs.getD 5000

/-- `pollUntilComplete(projectUuid, options)` from `src/api/client.ts`,
driven by a scripted poller giving the `getProjectStatus` answer of each
attempt. -/
def pollUntilComplete (poll : Nat → ProjectStatus) (o : PollOptions) :
    PollResult :=
  pollLoop poll 0 o.resolvedMaxAttempts

/-! ## Per-document outcome (`processItem` in `src/sync/orchestrator.ts`) -/

/-- `SyncStatus` from `src/types/index.ts`. -/
inductive SyncStatus
  | unchanged | new | updated | error
deriving DecidableEq

/-- `SyncResult` from `src/types/index.ts` (the optional `projectUuid` field
is not needed by any claim). -/
structure SyncResult where
  slug : String
  status : SyncStatus
  error : Option String := none
deriving DecidableEq

/-- The tail of `processItem` from the `pollUntilComplete` call onward,
for a document that reached submission (`isNew` records whether an audio-map
entry existed, choosing between the "new" and "updated" statuses).
`pollUntilComplete` is called with only an `onProgress` option, so both
numeric knobs take their defaults. A thrown sub-job failure or polling
timeout is caught by `processItem`'s catch block and becomes an error
result; a normal return without `finalStatus.alignmentJob?.alignmentUrl`
throws `"No alignment URL returned"`, likewise caught; otherwise the
artifact bookkeeping succeeds and the document's own status is returned. -/
def processItemAfterSubmit (slug : String) (isNew : Bool)
    (poll : Nat → ProjectStatus) : SyncResult :=
  match pollUntilComplete poll {} with
  | .jobFailed _ msg => { slug := slug, status := .error, error := some msg }
  | .pollingTimeout =>
    { slug := slug, status := .error
      error := some "Polling timeout - job did not complete in time" }
  | .succeeded _ st =>
    match st.alignmentJob.bind AlignJob.alignmentUrl with
    | none => { slug := slug, status := .error, error := some "No alignment URL returned" }
    | some _ => { slug := slug, status := if isNew then .new else .updated }

/-! ## Concrete inputs used to evaluate the definitions -/

/-- A composite view with the primary sub-job completed and no alignment
sub-job linked: the premise of termination rule B. -/
def alignAbsentDone : ProjectStatus :=
  { uuid := "p1", name := "doc", status := .completed,
    synthesisJob := some { status := .completed }, alignmentJob := none }

/-- A composite view with the primary sub-job still processing and no
alignment sub-job. -/
def synthRunning : ProjectStatus :=
  { uuid := "p1", name := "doc", status := .processing,
    synthesisJob := some { status := .processing }, alignmentJob := none }

/-- A scripted poller whose primary sub-job completes late: the first seven
polls (attempts 0 through 6) observe it processing, every later poll
observes it completed with the alignment sub-job absent. -/
def latePrimaryPoll (a : Nat) : ProjectStatus :=
  if a < 7 then synthRunning else alignAbsentDone

/-- A composite view on which no termination rule ever fires. -/
def pendingStatus : ProjectStatus :=
  { uuid := "p2", name := "doc", status := .processing,
    synthesisJob := some { status := .processing }, alignmentJob := none }

/-- A composite view in which both sub-jobs have failed, with distinct
error messages. -/
def bothFailed : ProjectStatus :=
  { uuid := "p3", name := "doc", status := .failed,
    synthesisJob := some { status := .failed, error := some "errA" },
    alignmentJob := some { status := .failed, error := some "errB" } }

/-- A one-entry alignment track. -/
def catTrack : List AlignedWord := [⟨"cat".data, 0, 1⟩]

/-- The three-entry track of the spec's worked example. -/
def theCatSat : List AlignedWord :=
  [⟨"the".data, 0, 1⟩, ⟨"cat".data, 1, 2⟩, ⟨"sat".data, 2, 3⟩]

/-- An eleven-entry track whose only occurrence of the word `far` sits at
index 10, one position beyond the lookahead window of a cursor at 0. -/
def farTrack : List AlignedWord :=
  List.replicate 10 ⟨"x".data, 0, 0⟩ ++ [⟨"far".data, 0, 0⟩]

/-! ## Theorems -/

theorem toksText_tokenize (cm : CharModel) (text : List Char) :
    toksText (tokenize cm text) = text := by
  induction text with
  | nil => rfl
  | cons c cs ih =>
    by_cases hc : wordChar cm c <;>
      rcases h : tokenize cm cs with _ | ⟨_ | _, ts⟩ <;>
      rw [h] at ih <;>
      simp_all [tokenize, toksText, tokText]

theorem nodesText_cons (n : ANode) (ns : List ANode) :
    nodesText (n :: ns) = nodeText n ++ nodesText ns := by
  simp [nodesText]

theorem toksText_cons (t : Tok) (ts : List Tok) :
    toksText (t :: ts) = tokText t ++ toksText ts := by
  simp [toksText]

theorem nodeText_stepToken (cm : CharModel) (words : List AlignedWord)
    (w : List Char) (i : Nat) : nodeText (stepToken cm words w i).1 = w := by
  rw [stepToken]
  rcases findMatch cm words i (normalizeWord cm w) with _ | ⟨j, cand⟩ <;> rfl

theorem nodesText_processToks (cm : CharModel) (words : List AlignedWord) :
    ∀ (ts : List Tok) (i : Nat),
      nodesText (processToks cm words ts i).1 = toksText ts := by
  intro ts
  induction ts with
  | nil => intro i; rfl
  | cons t rest ih =>
    intro i
    cases t with
    | sep s =>
      rw [processToks, nodesText_cons, toksText_cons, ih]
      rfl
    | word w =>
      rw [processToks, nodesText_cons, toksText_cons, nodeText_stepToken, ih]
      rfl

theorem nodesText_mergeNodes : ∀ ns : List ANode,
    nodesText (mergeNodes ns) = nodesText ns := by
  intro ns
  induction ns with
  | nil => rfl
  | cons n rest ih =>
    cases n with
    | span i s e v =>
      rw [mergeNodes, nodesText_cons, nodesText_cons, ih]
    | text a =>
      rw [mergeNodes]
      rcases h : mergeNodes rest with _ | ⟨_ | ⟨j, s, e, v⟩, ms⟩ <;>
        rw [h] at ih <;>
        simp [nodesText_cons, nodeText, ← ih, List.append_assoc]

/-- C3: for every input text, alignment track, and starting cursor,
concatenating the text fields of all spans returned by the matcher
(text-node values and the text children of timed spans), in order, equals
the original input text exactly. -/
theorem C3_reconstruction (cm : CharModel) (text : List Char)
    (words : List AlignedWord) (startIndex : Nat) :
    nodesText (processTextNode cm text words startIndex).nodes = text := by
  rw [processTextNode]
  rw [nodesText_mergeNodes, nodesText_processToks, toksText_tokenize]

theorem findFrom_some (cm : CharModel) (words : List AlignedWord)
    (norm : List Char) :
    ∀ (k i j : Nat) (cand : AlignedWord),
      findFrom cm words norm i k = some (j, cand) →
      i ≤ j ∧ j < i + k ∧ words[j]? = some cand := by
  intro k
  induction k with
  | zero => intro i j cand h; simp [findFrom] at h
  | succ k ih =>
    intro i j cand h
    rw [findFrom] at h
    split at h
    next => exact absurd h (by simp)
    next c hw =>
      split at h
      next hn =>
        obtain ⟨rfl, rfl⟩ : i = j ∧ c = cand := by simpa using h
        exact ⟨Nat.le_refl _, by omega, hw⟩
      next hn =>
        obtain ⟨h1, h2, h3⟩ := ih (i + 1) j cand h
        exact ⟨by omega, by omega, h3⟩

theorem getElem?_some_lt {α : Type} (l : List α) (n : Nat) (a : α)
    (h : l[n]? = some a) : n < l.length := by
  by_contra hn
  rw [List.getElem?_eq_none (by omega)] at h
  exact Option.noConfusion h

theorem stepToken_snd_bounds (cm : CharModel) (words : List AlignedWord)
    (w : List Char) (i : Nat) (h : i ≤ words.length) :
    i ≤ (stepToken cm words w i).2 ∧ (stepToken cm words w i).2 ≤ words.length := by
  cases hf : findMatch cm words i (normalizeWord cm w) with
  | none =>
    have he : (stepToken cm words w i).2 = i := by rw [stepToken, hf]
    rw [he]
    exact ⟨Nat.le_refl _, h⟩
  | some p =>
    rcases p with ⟨j, cand⟩
    obtain ⟨h1, _, h3⟩ := findFrom_some cm words _ maxLookahead i j cand hf
    have hj : j < words.length := getElem?_some_lt words j cand h3
    have he : (stepToken cm words w i).2 = j + 1 := by rw [stepToken, hf]
    rw [he]
    exact ⟨by omega, by omega⟩

theorem processToks_snd_bounds (cm : CharModel) (words : List AlignedWord) :
    ∀ (ts : List Tok) (i : Nat), i ≤ words.length →
      i ≤ (processToks cm words ts i).2
        ∧ (processToks cm words ts i).2 ≤ words.length := by
  intro ts
  induction ts with
  | nil => intro i h; exact ⟨Nat.le_refl _, h⟩
  | cons t rest ih =>
    intro i h
    cases t with
    | sep s => exact ih i h
    | word w =>
      obtain ⟨hb1, hb2⟩ := stepToken_snd_bounds cm words w i h
      obtain ⟨hr1, hr2⟩ := ih (stepToken cm words w i).2 hb2
      exact ⟨Nat.le_trans hb1 hr1, hr2⟩

/-- C4: across any sequence of matcher calls threading one cursor, the
returned cursor value is non-decreasing and never exceeds the track length
(given that the incoming cursor does not, which holds inductively from the
initial cursor 0); and a token that finds no match within the window leaves
the cursor unchanged for that token. -/
theorem C4_monotonic_cursor (cm : CharModel) (words : List AlignedWord)
    (text w : List Char) (i : Nat)
    (h : i ≤ words.length)
    (hw : findMatch cm words i (normalizeWord cm w) = none) :
    i ≤ (processTextNode cm text words i).nextWordIndex
    ∧ (processTextNode cm text words i).nextWordIndex ≤ words.length
    ∧ (stepToken cm words w i).2 = i := by
  obtain ⟨h1, h2⟩ := processToks_snd_bounds cm words (tokenize cm text) i h
  refine ⟨h1, h2, ?_⟩
  rw [stepToken, hw]

theorem C4_monotonic_cursor_witness :
    0 ≤ (processTextNode asciiChars ("The cat sat.".data) theCatSat 0).nextWordIndex
    ∧ (processTextNode asciiChars ("The cat sat.".data) theCatSat 0).nextWordIndex
        ≤ theCatSat.length
    ∧ (stepToken asciiChars theCatSat ("zebra".data) 0).2 = 0 :=
  C4_monotonic_cursor asciiChars theCatSat ("The cat sat.".data) ("zebra".data) 0
    (by decide) (by decide)

theorem findFrom_map_fst (cm : CharModel) (words : List AlignedWord)
    (norm : List Char) :
    ∀ (k i : Nat), (findFrom cm words norm i k).map Prod.fst
      = (List.range' i k).find? (matchesAt cm words norm) := by
  intro k
  induction k with
  | zero => intro i; rfl
  | succ k ih =>
    intro i
    rw [findFrom, List.range'_succ, List.find?_cons]
    cases hw : words[i]? with
    | some c =>
      by_cases hn : normalizeWord cm c.word = norm
      · simp [matchesAt, hw, hn]
      · simp [matchesAt, hw, hn, ih]
    | none =>
      have hlen : words.length ≤ i := List.getElem?_eq_none_iff.mp hw
      have hall : (List.range' (i + 1) k).find? (matchesAt cm words norm) = none := by
        rw [List.find?_eq_none]
        intro j hj
        have hij : i + 1 ≤ j := (List.mem_range'_1.mp hj).1
        have : words[j]? = none := List.getElem?_eq_none (by omega)
        simp [matchesAt, this]
      simp [matchesAt, hw, hall]

/-- C5: for every token, the matcher accepts exactly the first track entry at
an index `i` with `cursor ≤ i < cursor + 10` whose normalization equals the
token's normalization (`specFirstMatch` renders the spec's words); when no
such entry exists in the window — in particular when the only normalized-equal
entry lies at least 10 positions beyond the cursor — the token is emitted
verbatim and the cursor is unchanged. -/
theorem C5_lookahead_window (cm : CharModel) (words : List AlignedWord)
    (cursor : Nat) (w : List Char) :
    (findMatch cm words cursor (normalizeWord cm w)).map Prod.fst
      = specFirstMatch cm words cursor (normalizeWord cm w)
    ∧ (findMatch cm words cursor (normalizeWord cm w) = none →
        stepToken cm words w cursor = (ANode.text w, cursor)) := by
  constructor
  · rw [findMatch, specFirstMatch]
    exact findFrom_map_fst cm words _ maxLookahead cursor
  · intro hnone
    rw [stepToken, hnone]

theorem C5_lookahead_window_witness :
    (findMatch asciiChars farTrack 0 (normalizeWord asciiChars ("far".data))).map Prod.fst
      = specFirstMatch asciiChars farTrack 0 (normalizeWord asciiChars ("far".data))
    ∧ stepToken asciiChars farTrack ("far".data) 0 = (ANode.text ("far".data), 0) :=
  ⟨(C5_lookahead_window asciiChars farTrack 0 ("far".data)).1,
    (C5_lookahead_window asciiChars farTrack 0 ("far".data)).2 (by decide)⟩

/-- C6: when both sub-jobs are failed, the failure returned by the state
machine references the primary (synthesis) sub-job and its error message,
not the alignment failure — the synthesis check comes first in the source. -/
theorem C6_failure_precedence (poll : Nat → ProjectStatus) (o : PollOptions)
    (uuid name : String) (pstat : JobStatus) (sj : SynthJob) (aj : AlignJob)
    (hmax : 1 ≤ o.resolvedMaxAttempts)
    (h0 : poll 0 = { uuid := uuid, name := name, status := pstat,
                     synthesisJob := some sj, alignmentJob := some aj })
    (hsf : sj.status = .failed) (haf : aj.status = .failed) :
    pollUntilComplete poll o =
      .jobFailed 0 ("Synthesis failed: " ++ errMsg sj.error) := by
  obtain ⟨fuel, hfuel⟩ : ∃ fuel, o.resolvedMaxAttempts = fuel + 1 :=
    ⟨o.resolvedMaxAttempts - 1, by omega⟩
  rw [pollUntilComplete, hfuel, pollLoop, h0]
  have hstep : pollStep
      { uuid := uuid, name := name, status := pstat,
        synthesisJob := some sj, alignmentJob := some aj } 0
      = some (.jobFailed 0 ("Synthesis failed: " ++ errMsg sj.error)) := by
    simp [pollStep, synthComplete, alignComplete, synthJobStatus,
      alignJobStatus, hsf, haf]
  rw [hstep]

theorem C6_failure_precedence_witness :
    pollUntilComplete (fun _ => bothFailed) {} =
      .jobFailed 0 ("Synthesis failed: " ++ errMsg (some "errA")) :=
  C6_failure_precedence (fun _ => bothFailed) {} "p3" "doc" .failed
    { status := .failed, error := some "errA" }
    { status := .failed, error := some "errB" }
    (by decide) rfl rfl rfl

theorem pollLoop_timeout (poll : Nat → ProjectStatus) :
    ∀ (fuel att : Nat),
      (∀ a, att ≤ a → a < att + fuel → pollStep (poll a) a = none) →
      pollLoop poll att fuel = .pollingTimeout := by
  intro fuel
  induction fuel with
  | zero => intro att h; rfl
  | succ fuel ih =>
    intro att h
    rw [pollLoop, h att (Nat.le_refl att) (by omega)]
    exact ih (att + 1) (fun a h1 h2 => h a (by omega) (by omega))

/-- C8: the polling policy defaults to `maxAttempts = 120` and
`intervalMs = 5000`, and for every poll sequence in which no termination
rule fires within `maxAttempts` polls the state machine fails with the
polling timeout rather than returning a success or looping further. -/
theorem C8_defaults_and_timeout (poll : Nat → ProjectStatus) (o : PollOptions)
    (h : ∀ a, a < o.resolvedMaxAttempts → pollStep (poll a) a = none) :
    PollOptions.resolvedMaxAttempts {} = 120
    ∧ PollOptions.resolvedIntervalMs {} = 5000
    ∧ pollUntilComplete poll o = .pollingTimeout := by
  refine ⟨rfl, rfl, ?_⟩
  rw [pollUntilComplete]
  exact pollLoop_timeout poll o.resolvedMaxAttempts 0
    (fun a h1 h2 => h a (by omega))

set_option maxRecDepth 8000 in
theorem C8_defaults_and_timeout_witness :
    pollUntilComplete (fun _ => pendingStatus) {} = .pollingTimeout :=
  (C8_defaults_and_timeout (fun _ => pendingStatus) {} (by
    intro a ha
    have hr : ∀ x ∈ List.range 120, pollStep pendingStatus x = none := by decide
    exact hr a (List.mem_range.mpr ha))).2.2

/-- C1: behaviour of `pollUntilComplete` when the primary sub-job is
terminal and the alignment status absent. Under the scripted poller that
reports this from the very first poll, the loop returns success (alignment
absent) at attempt index 6, i.e. after exactly 6 additional polls. But the
`attempt > 5` test uses the global attempt counter, not a counter of polls
since the condition began to hold: under `latePrimaryPoll`, where the
condition first holds at attempt 7, the loop returns success at that very
attempt — after 0 additional polls, not after more than 5. -/
theorem C1_secondary_wait_uses_global_counter :
    pollUntilComplete (fun _ => alignAbsentDone) {} = .succeeded 6 alignAbsentDone
    ∧ pollUntilComplete latePrimaryPoll {} = .succeeded 7 alignAbsentDone := by
  constructor <;> rfl

/-- C2: behaviour of `processItem` for a document whose polling ends via
termination rule B (alignment never linked). `pollUntilComplete` returns a
status with no alignment sub-job, `processItem` then throws
`"No alignment URL returned"`, and its catch block records the document's
sync result with status `error` — not the graceful non-error outcome. -/
theorem C2_rule_b_becomes_error :
    processItemAfterSubmit "post" true (fun _ => alignAbsentDone)
      = { slug := "post", status := .error,
          error := some "No alignment URL returned" } := by
  rfl

/-- C7 counterexample: with a fetcher that fails, the first request for a
key performs a fetch, and — contrary to the claim that the failure is
stored — the second request for the same key performs a fetch again. -/
theorem C7_failed_fetch_refetches :
    (fetchAlignmentSync (fun _ => none) [] "url0" "slug0").didFetch = true
    ∧ (fetchAlignmentSync (fun _ => none)
        (fetchAlignmentSync (fun _ => none) [] "url0" "slug0").cache
        "url0" "slug0").didFetch = true := by
  constructor <;> rfl

/-- C7 (amended): for a key not in the cache, the first request performs the
remote fetch and returns its result; a successful result is stored, and the
next request for the key returns it without fetching; a failed fetch stores
nothing, so the next request for the key fetches again (returning the same
failure). -/
theorem C7_cache_stores_only_success
    (fetcher : String → Option (List AlignedWord))
    (cache : List (String × List AlignedWord)) (url slug : String)
    (h : cache.lookup slug = none) :
    (fetchAlignmentSync fetcher cache url slug).didFetch = true
    ∧ (fetchAlignmentSync fetcher cache url slug).result = fetcher url
    ∧ (fetchAlignmentSync fetcher cache url slug).cache
        = (match fetcher url with
           | some ws => (slug, ws) :: cache
           | none => cache)
    ∧ (fetchAlignmentSync fetcher
        (fetchAlignmentSync fetcher cache url slug).cache url slug).didFetch
        = (fetcher url).isNone
    ∧ (fetchAlignmentSync fetcher
        (fetchAlignmentSync fetcher cache url slug).cache url slug).result
        = fetcher url := by
  cases hf : fetcher url with
  | some ws => simp [fetchAlignmentSync, h, hf, List.lookup]
  | none => simp [fetchAlignmentSync, h, hf]

theorem C7_cache_stores_only_success_witness :
    (fetchAlignmentSync (fun _ => some catTrack) [] "url1" "slug1").didFetch = true
    ∧ (fetchAlignmentSync (fun _ => some catTrack)
        (fetchAlignmentSync (fun _ => some catTrack) [] "url1" "slug1").cache
        "url1" "slug1").didFetch = ((fun _ => some catTrack) "url1").isNone :=
  ⟨(C7_cache_stores_only_success (fun _ => some catTrack) [] "url1" "slug1" rfl).1,
    (C7_cache_stores_only_success (fun _ => some catTrack) [] "url1" "slug1" rfl).2.2.2.1⟩

/-- C9: for every text node whose processing yields at most one output node
— in particular a node whose entire text is a single token with no leading
or trailing characters — the plugin's visit callback leaves the node
unchanged and does not advance the shared word cursor, even when that
single token matched an alignment entry within the lookahead window. -/
theorem C9_single_node_no_advance (cm : CharModel) (words : List AlignedWord)
    (ancestors : List Ancestor) (value : List Char) (i : Nat)
    (h : (processTextNode cm value words i).nodes.length ≤ 1) :
    visitTextNode cm words ancestors value i = (.unchangedNode, i) := by
  rw [visitTextNode]
  by_cases hs : isInNonTextualElement ancestors
  · simp [hs]
  · have hc : (processTextNode cm value words i).nodes.length = 0
        ∨ (processTextNode cm value words i).nodes.length = 1 := by omega
    simp [hs, hc]
    intro hne
    rcases hc with h0 | h1
    · exact absurd (List.length_eq_zero.mp h0) hne
    · exact h1

theorem C9_single_node_no_advance_witness :
    visitTextNode asciiChars catTrack [Ancestor.root] ("cat".data) 0
      = (.unchangedNode, 0) :=
  C9_single_node_no_advance asciiChars catTrack [Ancestor.root] ("cat".data) 0
    (by decide)

/-- C10: a text node having any ancestor whose tag is one of the
non-textual tags, or whose class list contains one of the non-textual
classes, is never modified by the plugin's visit callback and never
advances the shared word cursor. -/
theorem C10_nontextual_untouched (cm : CharModel) (words : List AlignedWord)
    (ancestors : List Ancestor) (value : List Char) (i : Nat)
    (tag : String) (cls : List String)
    (hmem : Ancestor.element tag cls ∈ ancestors)
    (hnt : tag ∈ nonTextualTags ∨ ∃ c ∈ cls, c ∈ nonTextualClasses) :
    visitTextNode cm words ancestors value i = (.unchangedNode, i) := by
  have hskip : isInNonTextualElement ancestors = true := by
    rw [isInNonTextualElement, List.any_eq_true]
    refine ⟨Ancestor.element tag cls, hmem, ?_⟩
    show (decide (tag ∈ nonTextualTags)
        || cls.any fun c => decide (c ∈ nonTextualClasses)) = true
    rcases hnt with h | ⟨c, hc, hcnt⟩
    · simp [h]
    · rw [Bool.or_eq_true]
      refine Or.inr ?_
      rw [List.any_eq_true]
      exact ⟨c, hc, by simp [hcnt]⟩
  rw [visitTextNode, hskip]
  simp

theorem C10_nontextual_untouched_witness :
    visitTextNode asciiChars catTrack
      [Ancestor.root, Ancestor.element "code" []] ("cat".data ++ " sat".data) 0
      = (.unchangedNode, 0) :=
  C10_nontextual_untouched asciiChars catTrack
    [Ancestor.root, Ancestor.element "code" []] ("cat".data ++ " sat".data) 0
    "code" [] (by decide) (Or.inl (by decide))
